import Mathlib

/-!
# Verification of the Alfred emoji snippet-pack compiler

Shallow embedding of the snippet compilation pipeline of the
`alfred-emojipack` repository, together with proofs of the behavioural
properties stated by its specification.

The embedding covers:

* `EmojiAlfred` — the generator of `emoji_alfred_generator.py`
  (`EmojiSnippetGenerator`): codepoint decoding (`unicode_to_emoji`),
  snippet assembly (`create_snippet`, `generate_snippets`), the manifest
  (`create_info_plist`), the archive packaging
  (`create_alfred_snippet_pack`) and the snippet cap applied by `main`.
* `Emojipack` — the components of the pipeline's final revision
  (`emojipack_generator`, exercised by `test_runner.py` but whose module
  itself is not in the tree): the ordered keyword deriver, the raising
  codepoint decoder, the snippet assembler with composed display names,
  and the escaping manifest writer.  These are modelled from the
  specification, faithful to the behaviour that `test_runner.py` asserts.

Python strings can hold lone surrogate code points (for instance
`chr(0xD800)`), which a Lean `Char` cannot.  Decoded emoji character
sequences are therefore represented as `List Nat` of code points; plain
ASCII configuration values, names, shortcodes and filenames are `String`.
-/

/-- Code points of a Lean string, used to splice ordinary text into the
code-point-list representation of Python strings. -/
def strCps (s : String) : List Nat := s.data.map Char.toNat

/-- Split a character list at every occurrence of a separator character,
keeping empty pieces — the semantics of Python `str.split(sep)` for a
one-character separator (so splitting the empty string yields `[[]]`). -/
def charSplit (sep : Char) : List Char → List (List Char)
  | [] => [[]]
  | c :: rest =>
    match charSplit sep rest with
    | [] => [[c]]
    | g :: gs => if c = sep then [] :: g :: gs else (c :: g) :: gs

/-- Python `str.split(sep)` for a one-character separator. -/
def pySplit (sep : Char) (s : String) : List String :=
  (charSplit sep s.data).map (fun l => ⟨l⟩)

/-- Python `str.replace(old, new)` for one-character arguments. -/
def pyReplace (old new : Char) (s : String) : String :=
  ⟨s.data.map (fun c => if c = old then new else c)⟩

/-- Python `str.lower()` (ASCII behaviour). -/
def pyLower (s : String) : String := ⟨s.data.map Char.toLower⟩

/-- Python `str.upper()` (ASCII behaviour). -/
def pyUpper (s : String) : String := ⟨s.data.map Char.toUpper⟩

/-- Python `sep.join(parts)`. -/
def pyJoin (sep : String) : List String → String
  | [] => ""
  | [a] => a
  | a :: rest => a ++ sep ++ pyJoin sep rest

/-- Value of a hexadecimal digit, case-insensitive (`none` for any other
character). -/
def hexDigitVal (c : Char) : Option Nat :=
  if '0' ≤ c ∧ c ≤ '9' then some (c.toNat - '0'.toNat)
  else if 'a' ≤ c ∧ c ≤ 'f' then some (c.toNat - 'a'.toNat + 10)
  else if 'A' ≤ c ∧ c ≤ 'F' then some (c.toNat - 'A'.toNat + 10)
  else none

/-- Whitespace stripped by Python `int(str, 16)` around the digits
(ASCII portion). -/
def isPySpace (c : Char) : Bool :=
  c = ' ' ∨ c = '\t' ∨ c = '\n' ∨ c = '\r' ∨ c = '\x0b' ∨ c = '\x0c'

/-- Python `str.strip()` (ASCII whitespace). -/
def pyStrip (s : String) : String :=
  ⟨((s.data.dropWhile isPySpace).reverse.dropWhile isPySpace).reverse⟩

/-- Digit run of a Python hexadecimal literal after the first digit:
further digits, optionally separated by single underscores. -/
def pyHexRest (acc : Nat) : List Char → Option Nat
  | [] => some acc
  | '_' :: c :: rest =>
    match hexDigitVal c with
    | some d => pyHexRest (16 * acc + d) rest
    | none => none
  | '_' :: [] => none
  | c :: rest =>
    match hexDigitVal c with
    | some d => pyHexRest (16 * acc + d) rest
    | none => none

/-- Digit run of a Python hexadecimal literal: at least one digit,
single underscores allowed between digits. -/
def pyHexDigits : List Char → Option Nat
  | [] => none
  | c :: rest =>
    match hexDigitVal c with
    | some d => pyHexRest d rest
    | none => none

/-- Unsigned body of a Python hexadecimal literal: an optional `0x`/`0X`
prefix (which may be followed by one underscore) and then the digits. -/
def pyHexBody : List Char → Option Nat
  | '0' :: 'x' :: rest => pyHexAfterPrefix rest
  | '0' :: 'X' :: rest => pyHexAfterPrefix rest
  | l => pyHexDigits l
where
  /-- Digits after a `0x` prefix; a single leading underscore is allowed. -/
  pyHexAfterPrefix : List Char → Option Nat
    | '_' :: rest => pyHexDigits rest
    | l => pyHexDigits l

/-- Python `int(s, 16)`: surrounding whitespace stripped, optional sign,
optional `0x` prefix, hexadecimal digits with single underscores between
them.  Returns `none` where the Python call raises `ValueError`. -/
def pyIntHex (s : String) : Option Int :=
  let l := ((s.data.dropWhile isPySpace).reverse.dropWhile isPySpace).reverse
  match l with
  | '+' :: r => (pyHexBody r).map Int.ofNat
  | '-' :: r => (pyHexBody r).map (fun n => -(n : Int))
  | r => (pyHexBody r).map Int.ofNat

/-- Python `str.title()` (ASCII behaviour): a character is uppercased
when the previous character is not alphabetic, lowercased otherwise. -/
def pyTitleGo (prevAlpha : Bool) : List Char → List Char
  | [] => []
  | c :: rest =>
    (if prevAlpha then c.toLower else c.toUpper) :: pyTitleGo c.isAlpha rest

/-- Python `str.title()` on a whole string. -/
def pyTitle (s : String) : String := ⟨pyTitleGo false s.data⟩

namespace EmojiAlfred

/-! ## Embedding of `emoji_alfred_generator.py` (`EmojiSnippetGenerator`) -/

/-- One entry of the fetched emoji dataset, restricted to the keys the
generator reads.  `unified` models `emoji.get("unified", "")` (a missing
key behaves as `""`); `name` is `none` when the `"name"` key is missing,
in which case the source falls back to the shortcode; `short_names`
models `emoji.get("short_names", [])`. -/
structure EmojiData where
  unified : String
  name : Option String
  short_names : List String
deriving DecidableEq, Repr

/-- Generator configuration: the keyword prefix and suffix passed to
`EmojiSnippetGenerator.__init__` (defaults `";"` and `""`). -/
structure Generator where
  prefixStr : String
  suffixStr : String
deriving DecidableEq, Repr

/-- The `alfredsnippet` dictionary built by `create_snippet`.  The
`snippet` and `name` fields may contain the decoded emoji character, so
they are code-point lists. -/
structure AlfredSnippet where
  snippet : List Nat
  uid : String
  name : List Nat
  keyword : String
  dontautoexpand : Bool
deriving DecidableEq, Repr

/-- A snippet as staged by `generate_snippets`: the `alfredsnippet`
payload plus the top-level `_unicode_name` key added for filename
generation (`none` models a snippet dictionary without that key, as fed
directly to the packager by the tests). -/
structure StagedSnippet where
  alfredsnippet : AlfredSnippet
  unicodeName : Option String
deriving DecidableEq, Repr

/-- Decode a list of codepoint tokens: Python
`chars.append(chr(int(cp, 16)))` inside the loop of `unicode_to_emoji`;
`none` when any token makes `int` or `chr` raise, in which case the
source returns `""`.  `chr(n)` succeeds exactly for `0 ≤ n ≤ 0x10FFFF`
(lone surrogates included). -/
def decodeTokens : List String → Option (List Nat)
  | [] => some []
  | cp :: rest =>
    match pyIntHex cp with
    | some n =>
      if 0 ≤ n ∧ n ≤ 0x10FFFF then (decodeTokens rest).map (n.toNat :: ·)
      else none
    | none => none

/-- `EmojiSnippetGenerator.unicode_to_emoji`: empty input yields the
empty string, otherwise the input is split on `-` and each token decoded;
any failure yields the empty string.  The resulting Python string is
represented by its code points. -/
def unicode_to_emoji (unified : String) : List Nat :=
  if unified = "" then []
  else (decodeTokens (pySplit '-' unified)).getD []

/-- `EmojiSnippetGenerator.create_snippet`: builds the `alfredsnippet`
dictionary; the UID is `emojipack-{keyword}-{unicode_name with spaces
replaced by underscores}` and the keyword carries no prefix or suffix. -/
def create_snippet (emoji_char : List Nat) (keyword : String)
    (name : List Nat) (unicode_name : String) : AlfredSnippet :=
  { snippet := emoji_char
    uid := "emojipack-" ++ keyword ++ "-" ++ pyReplace ' ' '_' unicode_name
    name := name
    keyword := keyword
    dontautoexpand := false }

/-- `EmojiSnippetGenerator.generate_snippets` applied to a dataset: for
each record with a non-empty `unified` that decodes to a non-empty
character and a non-empty `short_names` list, one staged snippet per
shortcode, in dataset order then shortcode order.  (The keyword set the
source also computes here via `generate_keywords` is never used and is
omitted.) -/
def generate_snippets (data : List EmojiData) : List StagedSnippet :=
  data.flatMap fun emoji =>
    if emoji.unified = "" then []
    else
      let emoji_char := unicode_to_emoji emoji.unified
      if emoji_char = [] then []
      else if emoji.short_names = [] then []
      else
        emoji.short_names.map fun short_name =>
          let name := pyTitle (emoji.name.getD short_name)
          let unicode_name := emoji.name.getD short_name
          { alfredsnippet :=
              create_snippet emoji_char short_name
                (emoji_char ++ strCps (" " ++ name)) unicode_name
            unicodeName := some unicode_name }

/-- Fixed text of the `info.plist` template before the prefix value. -/
def plistHead : String :=
  "<?xml version=\"1.0\" encoding=\"UTF-8\"?>\n<!DOCTYPE plist PUBLIC \"-//Apple//DTD PLIST 1.0//EN\" \"http://www.apple.com/DTDs/PropertyList-1.0.dtd\">\n<plist version=\"1.0\">\n<dict>\n\t<key>snippetkeywordprefix</key>\n\t<string>"

/-- Fixed text of the `info.plist` template between the prefix and
suffix values. -/
def plistMid : String :=
  "</string>\n\t<key>snippetkeywordsuffix</key>\n\t<string>"

/-- Fixed text of the `info.plist` template after the suffix value. -/
def plistTail : String :=
  "</string>\n</dict>\n</plist>"

/-- `EmojiSnippetGenerator.create_info_plist`: the f-string template with
the configured prefix and suffix interpolated, with no escaping. -/
def create_info_plist (g : Generator) : String :=
  plistHead ++ g.prefixStr ++ plistMid ++ g.suffixStr ++ plistTail

/-- Archive filename chosen by `create_alfred_snippet_pack` for a staged
snippet: `{keyword}-{stripped unicode name with spaces replaced}.json`,
the unicode name defaulting to the uppercased keyword when the staged
snippet has no `_unicode_name` key. -/
def snippetFilename (s : StagedSnippet) : String :=
  let unicode_name := s.unicodeName.getD (pyUpper s.alfredsnippet.keyword)
  s.alfredsnippet.keyword ++ "-" ++ pyReplace ' ' '_' (pyStrip unicode_name)
    ++ ".json"

/-- Content of one archive entry: either a snippet JSON file (holding
the serialized `alfredsnippet` record, the `_unicode_name` key removed)
or the `info.plist` text. -/
inductive ZipContent where
  | snippetFile (s : AlfredSnippet)
  | plistFile (text : String)
deriving DecidableEq, Repr

/-- `EmojiSnippetGenerator.create_alfred_snippet_pack` as the list of
archive entries it produces.  Every staged snippet first writes its JSON
file into the staging directory — a later snippet with the same filename
overwrites an earlier one — and then one archive entry is added per
staged snippet (duplicate filenames included), reading the file's final
content; `info.plist` is appended last.  Consequently the content stored
under a filename is the serialization of the last staged snippet bearing
it. -/
def create_alfred_snippet_pack (g : Generator)
    (snippets : List StagedSnippet) : List (String × ZipContent) :=
  (snippets.map fun s =>
    (snippetFilename s,
     ZipContent.snippetFile
       (((snippets.filter
           (fun t => snippetFilename t = snippetFilename s)).getLast?.getD
         s).alfredsnippet)))
  ++ [("info.plist", ZipContent.plistFile (create_info_plist g))]

/-- The truncation `snippets = snippets[:max_emojis]` guarded by
`if max_emojis:` in `main`: no `--max-emojis` option or a value of `0`
(falsy) leaves the list unchanged; a positive value keeps the first
`max_emojis` snippets; a negative value drops that many from the end
(Python negative-slice semantics). -/
def applyMaxEmojis (maxEmojis : Option Int) (snippets : List StagedSnippet) :
    List StagedSnippet :=
  match maxEmojis with
  | none => snippets
  | some k =>
    if k = 0 then snippets
    else if 0 < k then snippets.take k.toNat
    else snippets.take (snippets.length - (-k).toNat)

end EmojiAlfred

namespace Emojipack

/-! ## The pipeline's final revision (`emojipack_generator`)

The module `emojipack_generator` imported by `test_runner.py` is not in
the tree; only its test suite is.  The definitions below are modelled
from the specification (§4.1–§4.4) and agree with every expectation
`test_runner.py` states about the module. -/

/-- Modelled from the spec: an input `EmojiRecord` (§3) — codepoints as
hex strings, human-readable name, taxonomy labels, and the non-empty
ordered shortcode list. -/
structure EmojiRecord where
  codepoints : List String
  name : String
  category : String
  subcategory : String
  shortcodes : List String
deriving DecidableEq, Repr

/-- Modelled from the spec: a derived `SnippetRecord` (§3), one per
emoji × shortcode pair. -/
structure SnippetRecord where
  character : String
  keyword : String
  displayName : String
  uid : String
  autoExpandDisabled : Bool
deriving DecidableEq, Repr

/-- Modelled from the spec: the error raised by the codepoint decoder,
identifying the offending token and the whole input string (§4.1). -/
structure InvalidCodepoint where
  token : String
  input : String
deriving DecidableEq, Repr

/-- A hexadecimal codepoint token: non-empty and consisting of
hexadecimal digits only. -/
def isHexToken (t : String) : Bool :=
  t ≠ "" ∧ t.data.all (fun c => (hexDigitVal c).isSome)

/-- Numeric value of a hexadecimal token. -/
def hexValue (t : String) : Nat :=
  t.data.foldl (fun a c => 16 * a + ((hexDigitVal c).getD 0)) 0

/-- A valid Unicode scalar value: at most `0x10FFFF` and not a
surrogate. -/
def isScalarValue (n : Nat) : Bool :=
  n ≤ 0x10FFFF ∧ ¬(0xD800 ≤ n ∧ n ≤ 0xDFFF)

/-- Decode a token list against a fixed original input string, failing
on the first token that is not hexadecimal or whose value is not a
Unicode scalar value. -/
def decodeTokens (input : String) : List String →
    Except InvalidCodepoint (List Char)
  | [] => .ok []
  | t :: rest =>
    if isHexToken t ∧ isScalarValue (hexValue t) then
      (decodeTokens input rest).map (Char.ofNat (hexValue t) :: ·)
    else .error ⟨t, input⟩

/-- Modelled from the spec: the codepoint decoder (§4.1).  Empty input
is an error, not a silent empty result; otherwise the input is split on
`-` and each token must be a hexadecimal numeral denoting a valid
Unicode scalar value, else `InvalidCodepoint` identifies the offending
token and the whole input. -/
def unicode_to_emoji (unified : String) :
    Except InvalidCodepoint String :=
  if unified = "" then .error ⟨"", unified⟩
  else (decodeTokens unified (pySplit '-' unified)).map fun cs => ⟨cs⟩

/-- Strip leading and trailing colons from a name token (§4.2 step 2). -/
def stripColons (t : String) : String :=
  ⟨((t.data.dropWhile (· = ':')).reverse.dropWhile (· = ':')).reverse⟩

/-- Modelled from the spec: name tokenization of the keyword deriver
(§4.2 step 2) — lowercase, split on whitespace, colons stripped. -/
def nameTokens (name : String) : List String :=
  ((pySplit ' ' (pyLower name)).map stripColons).filter (· ≠ "")

/-- The three generic taxonomy words that are always excluded (§4.2
step 3). -/
def genericWords : List String := ["object", "other", "symbol"]

/-- Modelled from the spec: the keyword deriver (§4.2).  The subcategory
is split on `-` into candidate tokens; the output keeps them in order,
removing every token in the exclusion set (name tokens plus the generic
words). -/
def generate_keywords (name subcategory : String) : List String :=
  let excluded := nameTokens name ++ genericWords
  (pySplit '-' subcategory).filter (fun t => ¬ t ∈ excluded)

/-- Filesystem-safe transform of a name used in UIDs and filenames:
spaces become underscores (§4.3). -/
def sanitizeName (name : String) : String := pyReplace ' ' '_' name

/-- Modelled from the spec: the snippet assembler for one record (§4.3).
If decoding fails the whole record is skipped; otherwise one
`SnippetRecord` per shortcode, with the verbatim shortcode as keyword,
the comma-joined display name, and the deterministic UID. -/
def assemble (rec : EmojiRecord) : List SnippetRecord :=
  match unicode_to_emoji (pyJoin "-" rec.codepoints) with
  | .error _ => []
  | .ok ch =>
    rec.shortcodes.map fun sc =>
      { character := ch
        keyword := sc
        displayName :=
          pyJoin ", "
            ((ch ++ " " ++ pyTitle rec.name)
              :: generate_keywords rec.name rec.subcategory)
        uid := "emojipack-" ++ sc ++ "-" ++ sanitizeName rec.name
        autoExpandDisabled := false }

/-- Modelled from the spec: the assembler over a whole record list,
keeping input order (§4.3). -/
def assembleAll (recs : List EmojiRecord) : List SnippetRecord :=
  recs.flatMap assemble

/-- Escape one character of manifest text: the XML-significant
characters `&`, `<`, `>` become entities. -/
def xmlEscapeChar (c : Char) : List Char :=
  if c = '&' then "&amp;".data
  else if c = '<' then "&lt;".data
  else if c = '>' then "&gt;".data
  else [c]

/-- Escape a whole manifest value. -/
def xmlEscape (s : String) : String := ⟨s.data.flatMap xmlEscapeChar⟩

/-- Modelled from the spec: the manifest writer of the final revision
(§4.4, §8 "escaping must be lossless"; `test_runner.py` checks that
markup-significant prefix/suffix values survive an XML parse).  Same
template as `EmojiAlfred.create_info_plist`, but the interpolated
values are escaped. -/
def create_info_plist (prefixStr suffixStr : String) : String :=
  EmojiAlfred.plistHead ++ xmlEscape prefixStr ++ EmojiAlfred.plistMid
    ++ xmlEscape suffixStr ++ EmojiAlfred.plistTail

/-- Decode XML entities in manifest text content. -/
def xmlUnescape : List Char → List Char
  | [] => []
  | c :: rest =>
    if c = '&' then
      if rest.take 4 = ['a', 'm', 'p', ';'] then
        '&' :: xmlUnescape (rest.drop 4)
      else if rest.take 3 = ['l', 't', ';'] then
        '<' :: xmlUnescape (rest.drop 3)
      else if rest.take 3 = ['g', 't', ';'] then
        '>' :: xmlUnescape (rest.drop 3)
      else c :: xmlUnescape rest
    else c :: xmlUnescape rest
termination_by l => l.length
decreasing_by all_goals simp_arith [List.length_drop]

/-- Drop an expected literal prefix, failing when it is not there. -/
def dropLit : List Char → List Char → Option (List Char)
  | [], l => some l
  | p :: ps, c :: cs => if c = p then dropLit ps cs else none
  | _ :: _, [] => none

/-- Re-parse a written manifest: match the fixed template around the two
`<string>` elements and decode the entities in their text content. -/
def parseManifest (doc : String) : Option (String × String) :=
  match dropLit EmojiAlfred.plistHead.data doc.data with
  | none => none
  | some l1 =>
    match dropLit EmojiAlfred.plistMid.data
        (l1.dropWhile (fun c => c ≠ '<')) with
    | none => none
    | some l2 =>
      if l2.dropWhile (fun c => c ≠ '<') = EmojiAlfred.plistTail.data then
        some (⟨xmlUnescape (l1.takeWhile (fun c => c ≠ '<'))⟩,
          ⟨xmlUnescape (l2.takeWhile (fun c => c ≠ '<'))⟩)
      else none

end Emojipack

/-! ## Helper lemmas -/

/-- Every code point produced by a successful `decodeTokens` run passed
the `chr` range check. -/
theorem EmojiAlfred.decodeTokens_le (l : List String) (m : List Nat)
    (h : EmojiAlfred.decodeTokens l = some m) :
    ∀ n ∈ m, n ≤ 0x10FFFF := by
  induction l generalizing m with
  | nil =>
    simp only [EmojiAlfred.decodeTokens, Option.some.injEq] at h
    subst h; simp
  | cons cp rest ih =>
    simp only [EmojiAlfred.decodeTokens] at h
    cases hp : pyIntHex cp with
    | none => rw [hp] at h; exact absurd h (by simp)
    | some k =>
      rw [hp] at h
      dsimp only at h
      by_cases hk : 0 ≤ k ∧ k ≤ 0x10FFFF
      · rw [if_pos hk] at h
        cases hrest : EmojiAlfred.decodeTokens rest with
        | none => rw [hrest] at h; exact absurd h (by simp)
        | some m' =>
          rw [hrest] at h
          simp only [Option.map_some', Option.some.injEq] at h
          subst h
          intro n hn
          rcases List.mem_cons.mp hn with hn | hn
          · subst hn; omega
          · exact ih m' hrest n hn
      · rw [if_neg hk] at h; exact absurd h (by simp)

/-- A failing token anywhere in the list makes `Emojipack.decodeTokens`
fail, with an error naming the original input and an offending token of
the list. -/
theorem Emojipack.decodeTokens_error (inp : String) (l : List String)
    (h : ∃ t ∈ l, ¬(Emojipack.isHexToken t
      ∧ Emojipack.isScalarValue (Emojipack.hexValue t))) :
    ∃ e, Emojipack.decodeTokens inp l = .error e ∧ e.input = inp
      ∧ e.token ∈ l
      ∧ ¬(Emojipack.isHexToken e.token
          ∧ Emojipack.isScalarValue (Emojipack.hexValue e.token)) := by
  induction l with
  | nil => simp at h
  | cons t rest ih =>
    by_cases hbad : Emojipack.isHexToken t
        ∧ Emojipack.isScalarValue (Emojipack.hexValue t)
    · have hrest : ∃ u ∈ rest, ¬(Emojipack.isHexToken u
          ∧ Emojipack.isScalarValue (Emojipack.hexValue u)) := by
        rcases h with ⟨u, hu, hbu⟩
        rcases List.mem_cons.mp hu with hu | hu
        · exact absurd hbad (hu ▸ hbu)
        · exact ⟨u, hu, hbu⟩
      rcases ih hrest with ⟨e, he, hei, het, heb⟩
      refine ⟨e, ?_, hei, List.mem_cons_of_mem _ het, heb⟩
      simp only [Emojipack.decodeTokens, if_pos hbad, he, Except.map]
    · exact ⟨⟨t, inp⟩, by simp only [Emojipack.decodeTokens, if_neg hbad],
        rfl, List.mem_cons_self _ _, hbad⟩

/-- Dropping an expected literal prefix from exactly that prefix leaves
the remainder. -/
theorem Emojipack.dropLit_append (p r : List Char) :
    Emojipack.dropLit p (p ++ r) = some r := by
  induction p with
  | nil => rfl
  | cons c cs ih => simp [Emojipack.dropLit, ih]

/-- `takeWhile`/`dropWhile` at the first `<` of a list that starts with
a `<`-free block. -/
theorem Emojipack.span_at_lt (e m : List Char) (he : ∀ c ∈ e, ¬ c = '<') :
    (e ++ '<' :: m).takeWhile (fun c => c ≠ '<') = e
    ∧ (e ++ '<' :: m).dropWhile (fun c => c ≠ '<') = '<' :: m := by
  induction e with
  | nil => constructor <;> simp [List.takeWhile, List.dropWhile]
  | cons c cs ih =>
    have hc : ¬ c = '<' := he c (List.mem_cons_self _ _)
    have ihs := ih (fun d hd => he d (List.mem_cons_of_mem _ hd))
    constructor
    · simpa [List.takeWhile, hc] using ihs.1
    · simpa [List.dropWhile, hc] using ihs.2

/-- A single escaped character never contains a raw `<`. -/
theorem Emojipack.xmlEscapeChar_no_lt (d c : Char)
    (hd : c ∈ Emojipack.xmlEscapeChar d) : ¬ c = '<' := by
  unfold Emojipack.xmlEscapeChar at hd
  by_cases h1 : d = '&'
  · rw [if_pos h1] at hd
    rw [show ("&amp;".data = ['&', 'a', 'm', 'p', ';']) from rfl] at hd
    simp only [List.mem_cons, List.not_mem_nil, or_false] at hd
    rcases hd with rfl | rfl | rfl | rfl | rfl <;> decide
  · rw [if_neg h1] at hd
    by_cases h2 : d = '<'
    · rw [if_pos h2] at hd
      rw [show ("&lt;".data = ['&', 'l', 't', ';']) from rfl] at hd
      simp only [List.mem_cons, List.not_mem_nil, or_false] at hd
      rcases hd with rfl | rfl | rfl | rfl <;> decide
    · rw [if_neg h2] at hd
      by_cases h3 : d = '>'
      · rw [if_pos h3] at hd
        rw [show ("&gt;".data = ['&', 'g', 't', ';']) from rfl] at hd
        simp only [List.mem_cons, List.not_mem_nil, or_false] at hd
        rcases hd with rfl | rfl | rfl | rfl <;> decide
      · rw [if_neg h3] at hd
        simp only [List.mem_singleton] at hd
        subst hd; exact h2

/-- Escaped manifest text never contains a raw `<`. -/
theorem Emojipack.xmlEscape_no_lt (s : String) :
    ∀ c ∈ (Emojipack.xmlEscape s).data, ¬ c = '<' := by
  intro c hc
  simp only [Emojipack.xmlEscape, List.mem_flatMap] at hc
  rcases hc with ⟨d, _, hd⟩
  exact Emojipack.xmlEscapeChar_no_lt d c hd

/-- Decoding an escaped character glued onto any tail recovers the
character and leaves the tail to be decoded. -/
theorem Emojipack.xmlUnescape_escapeChar (c : Char) (l : List Char) :
    Emojipack.xmlUnescape (Emojipack.xmlEscapeChar c ++ l)
      = c :: Emojipack.xmlUnescape l := by
  unfold Emojipack.xmlEscapeChar
  by_cases h1 : c = '&'
  · subst h1; rw [if_pos rfl]
    show Emojipack.xmlUnescape ('&' :: ('a' :: 'm' :: 'p' :: ';' :: l)) = _
    rw [Emojipack.xmlUnescape]
    simp
  · rw [if_neg h1]
    by_cases h2 : c = '<'
    · subst h2; rw [if_pos rfl]
      show Emojipack.xmlUnescape ('&' :: ('l' :: 't' :: ';' :: l)) = _
      rw [Emojipack.xmlUnescape]
      simp
    · rw [if_neg h2]
      by_cases h3 : c = '>'
      · subst h3; rw [if_pos rfl]
        show Emojipack.xmlUnescape ('&' :: ('g' :: 't' :: ';' :: l)) = _
        rw [Emojipack.xmlUnescape]
        simp
      · rw [if_neg h3]
        show Emojipack.xmlUnescape (c :: l) = _
        rw [Emojipack.xmlUnescape, if_neg h1]

/-- XML escaping of manifest text is lossless. -/
theorem Emojipack.xmlUnescape_xmlEscape (s : String) :
    Emojipack.xmlUnescape (Emojipack.xmlEscape s).data = s.data := by
  show Emojipack.xmlUnescape (s.data.flatMap Emojipack.xmlEscapeChar) = s.data
  induction s.data with
  | nil => simp [Emojipack.xmlUnescape]
  | cons c cs ih =>
    rw [List.flatMap_cons, Emojipack.xmlUnescape_escapeChar, ih]

/-! ## Claim theorems -/

/-- C1: the keyword deriver returns the subcategory split on `-` into
tokens kept in their original order, with every token removed that
belongs to the exclusion set formed by the lowercased name tokens
together with the generic words `object`, `other`, `symbol`; in
particular `GRINNING FACE` / `face-smiling` yields exactly
`["smiling"]`, and if every candidate token is excluded the result is
the empty list, not an error. -/
theorem keyword_deriver_ordered_exclusion (name subcategory : String) :
    List.Sublist (Emojipack.generate_keywords name subcategory)
      (pySplit '-' subcategory)
    ∧ (∀ t, t ∈ Emojipack.generate_keywords name subcategory ↔
        (t ∈ pySplit '-' subcategory ∧ ¬ t ∈ Emojipack.nameTokens name
          ∧ ¬ t ∈ Emojipack.genericWords))
    ∧ Emojipack.generate_keywords "GRINNING FACE" "face-smiling"
        = ["smiling"]
    ∧ Emojipack.generate_keywords "KEYCAP: *" "keycap" = [] := by
  refine ⟨List.filter_sublist _, ?_, by decide, by decide⟩
  intro t
  simp only [Emojipack.generate_keywords, List.mem_filter,
    decide_eq_true_eq, List.mem_append]
  tauto

/-- C2: the codepoint decoder of the pipeline's final revision raises
`InvalidCodepoint` for the empty input string, for any non-hexadecimal
token, and for any token whose value is outside the valid Unicode scalar
range, the error naming the offending token and the whole input; in
particular both `""` and `"INVALID"` raise `InvalidCodepoint`. -/
theorem decoder_rejects_invalid (input t : String)
    (ht : t ∈ pySplit '-' input)
    (hbad : ¬(Emojipack.isHexToken t
      ∧ Emojipack.isScalarValue (Emojipack.hexValue t))) :
    (∃ e, Emojipack.unicode_to_emoji input = .error e
      ∧ e.input = input ∧ e.token ∈ pySplit '-' input
      ∧ ¬(Emojipack.isHexToken e.token
          ∧ Emojipack.isScalarValue (Emojipack.hexValue e.token)))
    ∧ Emojipack.unicode_to_emoji "" = .error ⟨"", ""⟩
    ∧ Emojipack.unicode_to_emoji "INVALID"
        = .error ⟨"INVALID", "INVALID"⟩ := by
  refine ⟨?_, by rfl, by rfl⟩
  by_cases hin : input = ""
  · subst hin
    exact ⟨⟨"", ""⟩, rfl, rfl, by decide, by decide⟩
  · rcases Emojipack.decodeTokens_error input (pySplit '-' input)
      ⟨t, ht, hbad⟩ with ⟨e, he, hei, het, heb⟩
    refine ⟨e, ?_, hei, het, heb⟩
    simp only [Emojipack.unicode_to_emoji, if_neg hin, he, Except.map]

/-- C10: the codepoint decoder of `emoji_alfred_generator.py` is total:
it returns the empty string for empty input and for any malformed or
out-of-range token (the caller then skips the record silently), every
code point it produces is at most `0x10FFFF`, and it accepts tokens in
the surrogate range `D800`–`DFFF`, decoding them into the output rather
than rejecting them. -/
theorem decoder_total_src (u : String) (n : Nat)
    (hn : n ∈ EmojiAlfred.unicode_to_emoji u) :
    n ≤ 0x10FFFF
    ∧ EmojiAlfred.unicode_to_emoji "" = []
    ∧ EmojiAlfred.unicode_to_emoji "INVALID" = []
    ∧ EmojiAlfred.unicode_to_emoji "110000" = []
    ∧ EmojiAlfred.unicode_to_emoji "D800" = [0xD800]
    ∧ EmojiAlfred.unicode_to_emoji "D800-DFFF" = [0xD800, 0xDFFF]
    ∧ EmojiAlfred.generate_snippets
        [⟨"INVALID", some "SOME NAME", ["kw"]⟩] = [] := by
  refine ⟨?_, by decide, by decide, by decide, by decide, by decide,
    by decide⟩
  unfold EmojiAlfred.unicode_to_emoji at hn
  by_cases hu : u = ""
  · rw [if_pos hu] at hn; simp at hn
  · rw [if_neg hu] at hn
    cases hd : EmojiAlfred.decodeTokens (pySplit '-' u) with
    | none => rw [hd] at hn; simp at hn
    | some m =>
      rw [hd] at hn
      exact EmojiAlfred.decodeTokens_le _ m hd n hn

/-- C10 witness: the lone surrogate `D800` is decoded into the output,
and the produced code point satisfies the proved bound. -/
theorem decoder_total_src_witness :
    0xD800 ∈ EmojiAlfred.unicode_to_emoji "D800" ∧ 0xD800 ≤ 0x10FFFF :=
  ⟨by decide, (decoder_total_src "D800" 0xD800 (by decide)).1⟩

/-- C2 witness: the concrete non-hexadecimal input `INVALID` is
rejected with an error naming the token and the input. -/
theorem decoder_rejects_invalid_witness :
    ∃ e, Emojipack.unicode_to_emoji "INVALID" = .error e
      ∧ e.input = "INVALID" ∧ e.token ∈ pySplit '-' "INVALID"
      ∧ ¬(Emojipack.isHexToken e.token
          ∧ Emojipack.isScalarValue (Emojipack.hexValue e.token)) :=
  (decoder_rejects_invalid "INVALID" "INVALID" (by decide) (by decide)).1


/-- C3: compilation is deterministic — the whole pipeline is a pure
function of the record list and configuration, and in particular the uid
of every staged snippet is the fixed deterministic function
`emojipack-{keyword}-{name with spaces replaced}` of its shortcode and
its record's name, never a random value. -/
theorem uid_deterministic (data : List EmojiAlfred.EmojiData)
    (s : EmojiAlfred.StagedSnippet)
    (hs : s ∈ EmojiAlfred.generate_snippets data) :
    ∃ un, s.unicodeName = some un
      ∧ s.alfredsnippet.uid
          = "emojipack-" ++ s.alfredsnippet.keyword ++ "-"
            ++ pyReplace ' ' '_' un := by
  simp only [EmojiAlfred.generate_snippets, List.mem_flatMap] at hs
  rcases hs with ⟨e, _, hmem⟩
  by_cases h1 : e.unified = ""
  · rw [if_pos h1] at hmem; simp at hmem
  · rw [if_neg h1] at hmem
    by_cases h2 : EmojiAlfred.unicode_to_emoji e.unified = []
    · rw [if_pos h2] at hmem; simp at hmem
    · rw [if_neg h2] at hmem
      by_cases h3 : e.short_names = []
      · rw [if_pos h3] at hmem; simp at hmem
      · rw [if_neg h3] at hmem
        rcases List.mem_map.mp hmem with ⟨sn, _, hsn⟩
        subst hsn
        exact ⟨e.name.getD sn, rfl, rfl⟩

/-- C3 witness: the snippet generated for `GRINNING FACE` /
`grinning` carries the deterministic uid derived from its shortcode and
name. -/
theorem uid_deterministic_witness :
    ∃ un, (⟨⟨strCps "😀", "emojipack-grinning-GRINNING_FACE",
        strCps "😀 Grinning Face", "grinning", false⟩,
        some "GRINNING FACE"⟩ : EmojiAlfred.StagedSnippet).unicodeName
        = some un
      ∧ ("emojipack-grinning-GRINNING_FACE" : String)
          = "emojipack-" ++ "grinning" ++ "-" ++ pyReplace ' ' '_' un :=
  uid_deterministic [⟨"1F600", some "GRINNING FACE", ["grinning"]⟩]
    ⟨⟨strCps "😀", "emojipack-grinning-GRINNING_FACE",
      strCps "😀 Grinning Face", "grinning", false⟩,
      some "GRINNING FACE"⟩ (by decide)

/-- C5: an `EmojiData` record whose codepoints decode to a non-empty
character and whose shortcode list is non-empty contributes exactly one
staged snippet per shortcode, in the listed shortcode order; the
snippets agree on every `alfredsnippet` field other than `keyword`,
`uid` and the name; and records contribute in input order. -/
theorem fanout_per_shortcode (e : EmojiAlfred.EmojiData)
    (hd : EmojiAlfred.unicode_to_emoji e.unified ≠ [])
    (hs : e.short_names ≠ []) :
    (EmojiAlfred.generate_snippets [e]).length = e.short_names.length
    ∧ (EmojiAlfred.generate_snippets [e]).map
        (fun s => s.alfredsnippet.keyword) = e.short_names
    ∧ (∀ s t, s ∈ EmojiAlfred.generate_snippets [e]
        → t ∈ EmojiAlfred.generate_snippets [e]
        → s.alfredsnippet.snippet = t.alfredsnippet.snippet
          ∧ s.alfredsnippet.dontautoexpand
              = t.alfredsnippet.dontautoexpand)
    ∧ (∀ pre post, EmojiAlfred.generate_snippets (pre ++ e :: post)
        = EmojiAlfred.generate_snippets pre
          ++ EmojiAlfred.generate_snippets [e]
          ++ EmojiAlfred.generate_snippets post) := by
  have hu : e.unified ≠ "" := by
    intro h; exact hd (by rw [h]; rfl)
  have hcontrib : EmojiAlfred.generate_snippets [e]
      = e.short_names.map (fun short_name =>
          { alfredsnippet :=
              EmojiAlfred.create_snippet
                (EmojiAlfred.unicode_to_emoji e.unified) short_name
                (EmojiAlfred.unicode_to_emoji e.unified
                  ++ strCps (" " ++ pyTitle (e.name.getD short_name)))
                (e.name.getD short_name)
            unicodeName := some (e.name.getD short_name) }) := by
    simp [EmojiAlfred.generate_snippets, hu, hd, hs]
  refine ⟨?_, ?_, ?_, ?_⟩
  · rw [hcontrib, List.length_map]
  · rw [hcontrib, List.map_map]
    show List.map id e.short_names = e.short_names
    exact List.map_id _
  · intro s t hsm htm
    rw [hcontrib] at hsm htm
    rcases List.mem_map.mp hsm with ⟨sn, _, hsn⟩
    rcases List.mem_map.mp htm with ⟨tn, _, htn⟩
    subst hsn; subst htn
    exact ⟨rfl, rfl⟩
  · intro pre post
    simp [EmojiAlfred.generate_snippets, List.flatMap_append]

/-- C5 witness: the two-shortcode `GRINNING FACE` record yields exactly
two staged snippets. -/
theorem fanout_per_shortcode_witness :
    (EmojiAlfred.generate_snippets
        [⟨"1F600", some "GRINNING FACE",
          ["grinning", "grinning_face"]⟩]).length
      = (⟨"1F600", some "GRINNING FACE", ["grinning", "grinning_face"]⟩
          : EmojiAlfred.EmojiData).short_names.length :=
  (fanout_per_shortcode
    ⟨"1F600", some "GRINNING FACE", ["grinning", "grinning_face"]⟩
    (by decide) (by decide)).1

/-- C6: every compiled snippet's keyword is one of its record's
shortcode strings verbatim (no prefix or suffix concatenated — the
snippet entries of the archive do not depend on the configured prefix or
suffix at all), and the configured prefix and suffix appear once, in the
manifest entry, which is the archive's final entry. -/
theorem keyword_verbatim_manifest_once
    (data : List EmojiAlfred.EmojiData) (s : EmojiAlfred.StagedSnippet)
    (hs : s ∈ EmojiAlfred.generate_snippets data)
    (g g' : EmojiAlfred.Generator)
    (snips : List EmojiAlfred.StagedSnippet) :
    (∃ e, e ∈ data ∧ s.alfredsnippet.keyword ∈ e.short_names)
    ∧ (EmojiAlfred.create_alfred_snippet_pack g snips).dropLast
        = (EmojiAlfred.create_alfred_snippet_pack g' snips).dropLast
    ∧ (EmojiAlfred.create_alfred_snippet_pack g snips).getLast?
        = some ("info.plist", .plistFile
            (EmojiAlfred.plistHead ++ g.prefixStr ++ EmojiAlfred.plistMid
              ++ g.suffixStr ++ EmojiAlfred.plistTail)) := by
  refine ⟨?_, ?_, ?_⟩
  · simp only [EmojiAlfred.generate_snippets, List.mem_flatMap] at hs
    rcases hs with ⟨e, he, hmem⟩
    by_cases h1 : e.unified = ""
    · rw [if_pos h1] at hmem; simp at hmem
    · rw [if_neg h1] at hmem
      by_cases h2 : EmojiAlfred.unicode_to_emoji e.unified = []
      · rw [if_pos h2] at hmem; simp at hmem
      · rw [if_neg h2] at hmem
        by_cases h3 : e.short_names = []
        · rw [if_pos h3] at hmem; simp at hmem
        · rw [if_neg h3] at hmem
          rcases List.mem_map.mp hmem with ⟨sn, hsn, hmk⟩
          subst hmk
          exact ⟨e, he, hsn⟩
  · simp [EmojiAlfred.create_alfred_snippet_pack]
  · simp [EmojiAlfred.create_alfred_snippet_pack,
      EmojiAlfred.create_info_plist]

/-- C6 witness: the snippet generated for the one-shortcode record has
its shortcode, verbatim, as keyword. -/
theorem keyword_verbatim_manifest_once_witness :
    ∃ e, e ∈ ([⟨"41", some "X", ["kw"]⟩] : List EmojiAlfred.EmojiData)
      ∧ (⟨⟨strCps "A", "emojipack-kw-X", strCps "A X", "kw", false⟩,
          some "X"⟩
          : EmojiAlfred.StagedSnippet).alfredsnippet.keyword
        ∈ e.short_names :=
  (keyword_verbatim_manifest_once [⟨"41", some "X", ["kw"]⟩]
    ⟨⟨strCps "A", "emojipack-kw-X", strCps "A X", "kw", false⟩, some "X"⟩
    (by decide) ⟨";", ""⟩ ⟨";", ""⟩ []).1

/-- C4: every assembled snippet record's display name is the
comma-joined list whose first element is the decoded character, a space
and the title-cased name, followed by the derived keywords for that
record's name and subcategory; concretely, `GRINNING FACE` yields
`😀 Grinning Face, smiling`. -/
theorem displayName_composition (recs : List Emojipack.EmojiRecord)
    (s : Emojipack.SnippetRecord)
    (hs : s ∈ Emojipack.assembleAll recs) :
    (∃ rec, rec ∈ recs ∧ s.displayName
        = pyJoin ", " ((s.character ++ " " ++ pyTitle rec.name)
            :: Emojipack.generate_keywords rec.name rec.subcategory))
    ∧ (Emojipack.assembleAll
          [⟨["1F600"], "GRINNING FACE", "Smileys & Emotion",
            "face-smiling", ["grinning", "grinning_face"]⟩]).map
        (fun t => t.displayName)
      = ["😀 Grinning Face, smiling", "😀 Grinning Face, smiling"] := by
  refine ⟨?_, by decide⟩
  simp only [Emojipack.assembleAll, List.mem_flatMap] at hs
  rcases hs with ⟨rec, hrec, hmem⟩
  unfold Emojipack.assemble at hmem
  cases hdec : Emojipack.unicode_to_emoji (pyJoin "-" rec.codepoints) with
  | error e => rw [hdec] at hmem; simp at hmem
  | ok ch =>
    rw [hdec] at hmem
    rcases List.mem_map.mp hmem with ⟨sc, _, hmk⟩
    subst hmk
    exact ⟨rec, hrec, rfl⟩

/-- C4 witness: the concrete two-shortcode `GRINNING FACE` record
produces the expected display names. -/
theorem displayName_composition_witness :
    (Emojipack.assembleAll
        [⟨["1F600"], "GRINNING FACE", "Smileys & Emotion",
          "face-smiling", ["grinning", "grinning_face"]⟩]).map
      (fun t => t.displayName)
      = ["😀 Grinning Face, smiling", "😀 Grinning Face, smiling"] :=
  (displayName_composition
    [⟨["1F600"], "GRINNING FACE", "Smileys & Emotion", "face-smiling",
      ["grinning", "grinning_face"]⟩]
    ⟨"😀", "grinning", "😀 Grinning Face, smiling",
      "emojipack-grinning-GRINNING_FACE", false⟩ (by decide)).2

/-- C7 counterexample: two distinct staged snippets mapping to the same
archive filename do not abort the packaging with a `DuplicateFilename`
error — the pack is produced, the filename appears twice, and both
entries carry the second snippet's content (the first is silently
overwritten in the staging directory). -/
theorem duplicate_filename_counterexample :
    EmojiAlfred.snippetFilename
        ⟨⟨[65], "u1", [65], "kw", false⟩, some "NAME A"⟩
      = EmojiAlfred.snippetFilename
        ⟨⟨[66], "u2", [66], "kw", false⟩, some "NAME A"⟩
    ∧ (⟨⟨[65], "u1", [65], "kw", false⟩, some "NAME A"⟩
        : EmojiAlfred.StagedSnippet)
        ≠ ⟨⟨[66], "u2", [66], "kw", false⟩, some "NAME A"⟩
    ∧ EmojiAlfred.create_alfred_snippet_pack ⟨";", ""⟩
        [⟨⟨[65], "u1", [65], "kw", false⟩, some "NAME A"⟩,
         ⟨⟨[66], "u2", [66], "kw", false⟩, some "NAME A"⟩]
      = [("kw-NAME_A.json",
            .snippetFile ⟨[66], "u2", [66], "kw", false⟩),
         ("kw-NAME_A.json",
            .snippetFile ⟨[66], "u2", [66], "kw", false⟩),
         ("info.plist",
            .plistFile (EmojiAlfred.create_info_plist ⟨";", ""⟩))] :=
  ⟨rfl, by decide, rfl⟩

/-- C7 amended: the packager performs no duplicate-filename check; when
two staged snippets map to the same filename, the archive receives two
entries under that filename, both holding the serialization of the later
snippet, and no error is raised. -/
theorem duplicate_filename_overwrites (g : EmojiAlfred.Generator)
    (s1 s2 : EmojiAlfred.StagedSnippet)
    (h : EmojiAlfred.snippetFilename s1
      = EmojiAlfred.snippetFilename s2) :
    EmojiAlfred.create_alfred_snippet_pack g [s1, s2]
      = [(EmojiAlfred.snippetFilename s1,
            .snippetFile s2.alfredsnippet),
         (EmojiAlfred.snippetFilename s2,
            .snippetFile s2.alfredsnippet),
         ("info.plist",
            .plistFile (EmojiAlfred.create_info_plist g))] := by
  simp [EmojiAlfred.create_alfred_snippet_pack, List.filter, h]

/-- C7 amended witness: the overwrite behaviour at the concrete
colliding pair. -/
theorem duplicate_filename_overwrites_witness :
    EmojiAlfred.create_alfred_snippet_pack ⟨";", ""⟩
        [⟨⟨[65], "u1", [65], "kw", false⟩, some "NAME A"⟩,
         ⟨⟨[66], "u2", [66], "kw", false⟩, some "NAME A"⟩]
      = [(EmojiAlfred.snippetFilename
            ⟨⟨[65], "u1", [65], "kw", false⟩, some "NAME A"⟩,
            .snippetFile ⟨[66], "u2", [66], "kw", false⟩),
         (EmojiAlfred.snippetFilename
            ⟨⟨[66], "u2", [66], "kw", false⟩, some "NAME A"⟩,
            .snippetFile ⟨[66], "u2", [66], "kw", false⟩),
         ("info.plist",
            .plistFile (EmojiAlfred.create_info_plist ⟨";", ""⟩))] :=
  duplicate_filename_overwrites ⟨";", ""⟩
    ⟨⟨[65], "u1", [65], "kw", false⟩, some "NAME A"⟩
    ⟨⟨[66], "u2", [66], "kw", false⟩, some "NAME A"⟩ rfl

/-- C8: manifest serialization round-trips losslessly — for every prefix
and suffix, including values containing markup-significant characters,
writing the manifest of the pipeline's final revision and re-parsing it
yields the original strings exactly. -/
theorem manifest_roundtrip (p s : String) :
    Emojipack.parseManifest (Emojipack.create_info_plist p s)
      = some (p, s) := by
  have hmid : EmojiAlfred.plistMid.data
      = '<' :: ("/string>\n\t<key>snippetkeywordsuffix</key>\n\t<string>"
          : String).data := rfl
  have htail : EmojiAlfred.plistTail.data
      = '<' :: ("/string>\n</dict>\n</plist>" : String).data := rfl
  have hdoc : (Emojipack.create_info_plist p s).data
      = EmojiAlfred.plistHead.data ++ ((Emojipack.xmlEscape p).data
        ++ '<' ::
          (("/string>\n\t<key>snippetkeywordsuffix</key>\n\t<string>"
              : String).data
            ++ ((Emojipack.xmlEscape s).data
              ++ '<' :: ("/string>\n</dict>\n</plist>" : String).data))) := by
    show (EmojiAlfred.plistHead ++ Emojipack.xmlEscape p
        ++ EmojiAlfred.plistMid ++ Emojipack.xmlEscape s
        ++ EmojiAlfred.plistTail).data = _
    rw [String.data_append, String.data_append, String.data_append,
      String.data_append, hmid, htail]
    simp [List.append_assoc]
  have hspanp := Emojipack.span_at_lt (Emojipack.xmlEscape p).data
    (("/string>\n\t<key>snippetkeywordsuffix</key>\n\t<string>"
        : String).data
      ++ ((Emojipack.xmlEscape s).data
        ++ '<' :: ("/string>\n</dict>\n</plist>" : String).data))
    (Emojipack.xmlEscape_no_lt p)
  have hmid2 : ('<' : Char) ::
      (("/string>\n\t<key>snippetkeywordsuffix</key>\n\t<string>"
          : String).data
        ++ ((Emojipack.xmlEscape s).data
          ++ '<' :: ("/string>\n</dict>\n</plist>" : String).data))
      = EmojiAlfred.plistMid.data
        ++ ((Emojipack.xmlEscape s).data
          ++ '<' :: ("/string>\n</dict>\n</plist>" : String).data) := by
    rw [hmid]; rfl
  unfold Emojipack.parseManifest
  rw [hdoc]
  simp only [Emojipack.dropLit_append]
  rw [hspanp.2, hmid2]
  simp only [Emojipack.dropLit_append]
  rw [hmid, List.cons_append]
  rw [(Emojipack.span_at_lt _ _ (Emojipack.xmlEscape_no_lt p)).1]
  rw [(Emojipack.span_at_lt _ _ (Emojipack.xmlEscape_no_lt s)).1,
    (Emojipack.span_at_lt _ _ (Emojipack.xmlEscape_no_lt s)).2]
  rw [Emojipack.xmlUnescape_xmlEscape, Emojipack.xmlUnescape_xmlEscape]
  split
  · rfl
  · rename_i hfalse
    exact absurd (by decide) hfalse

/-- C9: `main` evaluated at the failing input — a single `GRINNING
FACE` record with two shortcodes and `--max-emojis 1`.  The claim (and
the option's own help text, "maximum number of emojis to process") says
the first record is compiled with its full fan-out of two snippets; the
code instead truncates the generated snippet list to one entry, cutting
the record's fan-out mid-record, and a cap of `0` is falsy and applies
no cap at all. -/
theorem max_emojis_caps_snippets_not_records :
    (EmojiAlfred.applyMaxEmojis (some 1)
        (EmojiAlfred.generate_snippets
          [⟨"1F600", some "GRINNING FACE",
            ["grinning", "grinning_face"]⟩])).map
      (fun s => s.alfredsnippet.keyword) = ["grinning"]
    ∧ (EmojiAlfred.generate_snippets
        [⟨"1F600", some "GRINNING FACE",
          ["grinning", "grinning_face"]⟩]).map
      (fun s => s.alfredsnippet.keyword) = ["grinning", "grinning_face"]
    ∧ EmojiAlfred.applyMaxEmojis (some 0)
        (EmojiAlfred.generate_snippets
          [⟨"1F600", some "GRINNING FACE",
            ["grinning", "grinning_face"]⟩])
      = EmojiAlfred.generate_snippets
          [⟨"1F600", some "GRINNING FACE",
            ["grinning", "grinning_face"]⟩] :=
  ⟨by decide, by decide, by decide⟩
